import Mathlib

/-!
Verification of the generic-ring matrix layer (`gr_mat`) of this FLINT tree:
shape checks, three-valued status propagation, pivot search, and classical
LU decomposition, together with the claims about them.

Machine integers (`slong`, C `int` status codes) are modelled as `Nat`/`Int`;
statuses are small bit patterns combined with bitwise or, so no overflow can
occur and no explicit wraparound is needed.  A `gr_mat_t` is modelled as its
mathematical content: row and column counts plus the list of rows (each row a
list of base-ring elements); the row-pointer indirection of the C struct is
represented by the position of a row in that list.
-/

/-- Status code for a successful operation.  The numeric values are modelled
from the spec (the header defining them is not part of the sources): Success
is the silent element of the bitwise-or aggregation, Domain-failure and
Unable are distinct nonzero bits. -/
def GR_SUCCESS : Nat := 0

/-- Status code for a mathematically impossible operation (Domain-failure). -/
def GR_DOMAIN : Nat := 1

/-- Status code for an undecidable predicate (Unable). -/
def GR_UNABLE : Nat := 2

/-- A generic ring context (`gr_ctx_t`): the dispatch table of per-element
operations that the matrix layer calls back into.  Every operation returns a
status code together with its output value; predicate operations return a
status code and a boolean. -/
structure GrCtx (α : Type) where
  is_zero : α → Nat × Bool
  is_one : α → Nat × Bool
  equal : α → α → Nat × Bool
  zero_val : Nat × α
  set_si : Int → Nat × α
  set_elem : α → Nat × α
  add : α → α → Nat × α
  mul : α → α → Nat × α
  neg : α → Nat × α
  inv : α → Nat × α
  init_val : α

/-- The pivot tie-break comparator `gr_cmp_repr` from the source: a stub that
returns 0 (every pair of representations compares equal). -/
def gr_cmp_repr {α : Type} (x y : α) : Int := 0

/-- Runs a per-element operation over a list, or-aggregating the statuses and
collecting the output values (the shape shared by the generic vector
operations). -/
def gr_vec_run {α β : Type} (f : β → Nat × α) (l : List β) : Nat × List α :=
  (l.foldl (fun s x => s ||| (f x).1) GR_SUCCESS, l.map (fun x => (f x).2))

/-- Modelled from the spec: `_gr_vec_is_zero` scans the run, or-aggregates the
per-element statuses, continues past Unable results, and short-circuits with
(Success, false) once a definite nonzero is established from a Success-status
test. -/
def gr_vec_is_zero {α : Type} (ctx : GrCtx α) : List α → Nat × Bool
  | [] => (GR_SUCCESS, true)
  | x :: xs =>
    let t := ctx.is_zero x
    if t.1 = GR_SUCCESS ∧ t.2 = false then (GR_SUCCESS, false)
    else
      let rest := gr_vec_is_zero ctx xs
      if rest.2 = false then rest else (t.1 ||| rest.1, true)

/-- Modelled from the spec: `_gr_vec_equal`, with the same scanning discipline
as `gr_vec_is_zero` applied to pairwise element equality. -/
def gr_vec_equal {α : Type} (ctx : GrCtx α) : List α → List α → Nat × Bool
  | [], _ => (GR_SUCCESS, true)
  | _, [] => (GR_SUCCESS, true)
  | x :: xs, y :: ys =>
    let t := ctx.equal x y
    if t.1 = GR_SUCCESS ∧ t.2 = false then (GR_SUCCESS, false)
    else
      let rest := gr_vec_equal ctx xs ys
      if rest.2 = false then rest else (t.1 ||| rest.1, true)

/-- Modelled from the spec: `_gr_vec_zero` writes the ring's zero to every
position, or-aggregating statuses. -/
def gr_vec_zero {α : Type} (ctx : GrCtx α) (v : List α) : Nat × List α :=
  gr_vec_run (fun _ => ctx.zero_val) v

/-- Modelled from the spec: `_gr_vec_set` copies every element through the
ring's set operation, or-aggregating statuses. -/
def gr_vec_set {α : Type} (ctx : GrCtx α) (src : List α) : Nat × List α :=
  gr_vec_run ctx.set_elem src

/-- Modelled from the spec: `_gr_vec_add`, elementwise addition over two runs
of equal length. -/
def gr_vec_add {α : Type} (ctx : GrCtx α) (v w : List α) : Nat × List α :=
  gr_vec_run (fun p => ctx.add p.1 p.2) (v.zip w)

/-- Modelled from the spec: `_gr_vec_sub`, elementwise subtraction, realised
as addition of the negation (the concrete element ops are injected through
the context). -/
def gr_vec_sub {α : Type} (ctx : GrCtx α) (v w : List α) : Nat × List α :=
  gr_vec_run (fun p =>
    let n := ctx.neg p.2
    let a := ctx.add p.1 n.2
    (n.1 ||| a.1, a.2)) (v.zip w)

/-- One multiply-accumulate step `x + y * e` through the context's mul and
add operations, or-aggregating the two statuses. -/
def gr_addmul_elem {α : Type} (ctx : GrCtx α) (e x y : α) : Nat × α :=
  let m := ctx.mul y e
  let a := ctx.add x m.2
  (m.1 ||| a.1, a.2)

/-- Modelled from the spec: `_gr_vec_scalar_addmul dst src e` replaces each
`dst` element by `dst + src * e`. -/
def gr_vec_scalar_addmul {α : Type} (ctx : GrCtx α) (dst src : List α) (e : α) :
    Nat × List α :=
  gr_vec_run (fun p => gr_addmul_elem ctx e p.1 p.2) (dst.zip src)

/-- Modelled from the spec: `_gr_vec_dot` with no additive seed — the
multiply-and-accumulate of two runs of equal length; the empty dot product is
the ring's zero. -/
def gr_vec_dot {α : Type} (ctx : GrCtx α) (v w : List α) : Nat × α :=
  match v.zip w with
  | [] => ctx.zero_val
  | p :: ps =>
    ps.foldl (fun acc q =>
      let m := ctx.mul q.1 q.2
      let a := ctx.add acc.2 m.2
      (acc.1 ||| m.1 ||| a.1, a.2)) (ctx.mul p.1 p.2)

/-- A generic matrix (`gr_mat_t`): row count, column count, and the rows.
`entries.getD i []` plays the role of the C `mat->rows[i]` pointer. -/
structure gr_mat (α : Type) where
  r : Nat
  c : Nat
  entries : List (List α)

/-- Well-formedness of a matrix value: `r` rows, each of length `c`
(the invariant `gr_mat_init` establishes). -/
def gr_mat.WF {α : Type} (M : gr_mat α) : Prop :=
  M.entries.length = M.r ∧ ∀ row ∈ M.entries, row.length = M.c

instance {α : Type} (M : gr_mat α) : Decidable M.WF := by
  unfold gr_mat.WF; infer_instance

/-- `GR_MAT_ENTRY(mat, i, j)`: the element at row `i`, column `j`;
`d` is the out-of-range default (never reached on well-formed input). -/
def gr_mat_entry {α : Type} (d : α) (M : gr_mat α) (i j : Nat) : α :=
  (M.entries.getD i []).getD j d

/-- Writing one entry of a matrix. -/
def gr_mat_set_entry {α : Type} (M : gr_mat α) (i j : Nat) (x : α) : gr_mat α :=
  { M with entries := M.entries.set i ((M.entries.getD i []).set j x) }

/-- Column `j` of a matrix as a list (stands for the transposed scratch
buffer built by classical multiplication). -/
def gr_mat_col {α : Type} (M : gr_mat α) (j : Nat) (d : α) : List α :=
  M.entries.map (fun row => row.getD j d)

/-- Or-aggregates the statuses of a list of per-row results and collects the
row values. -/
def gr_rows_status {α : Type} (rows : List (Nat × List α)) : Nat × List (List α) :=
  (rows.foldl (fun s p => s ||| p.1) GR_SUCCESS, rows.map (fun p => p.2))

/-- `gr_mat_init`: a fresh rows×cols matrix, every element constructed by the
context's element constructor; always succeeds. -/
def gr_mat_init {α : Type} (rows cols : Nat) (ctx : GrCtx α) : Nat × gr_mat α :=
  (GR_SUCCESS, ⟨rows, cols, List.replicate rows (List.replicate cols ctx.init_val)⟩)

/-- `gr_mat_is_empty`: whether the matrix has zero rows or zero columns. -/
def gr_mat_is_empty {α : Type} (mat : gr_mat α) : Bool :=
  mat.r == 0 || mat.c == 0

/-- The row loop of `gr_mat_is_zero`, with the source's status update kept
verbatim: on a definite nonzero row the loop breaks with (Success, false);
otherwise it executes `status |= status` (which leaves `status` unchanged)
and continues. -/
def gr_mat_is_zero_rows {α : Type} (ctx : GrCtx α) (status : Nat) :
    List (List α) → Nat × Bool
  | [] => (status, true)
  | row :: rest =>
    let t := gr_vec_is_zero ctx row
    if t.1 = GR_SUCCESS ∧ t.2 = false then (GR_SUCCESS, false)
    else gr_mat_is_zero_rows ctx (status ||| status) rest

/-- `gr_mat_is_zero`: an empty matrix is zero with Success; otherwise the
rows are scanned by `gr_mat_is_zero_rows`. -/
def gr_mat_is_zero {α : Type} (ctx : GrCtx α) (mat : gr_mat α) : Nat × Bool :=
  if mat.r = 0 ∨ mat.c = 0 then (GR_SUCCESS, true)
  else gr_mat_is_zero_rows ctx GR_SUCCESS mat.entries

/-- The per-entry test of `gr_mat_is_one`: a one-test on the diagonal, a
zero-test off it. -/
def gr_mat_is_one_entry_test {α : Type} (ctx : GrCtx α) (i j : Nat) (x : α) :
    Nat × Bool :=
  if i = j then ctx.is_one x else ctx.is_zero x

/-- The inner (column) loop of `gr_mat_is_one` over one row: returns the
status and whether a definite failure was found; breaking on a definite
failure resets the status to Success, exactly as in the source, and the
non-breaking branch keeps the source's `status |= status`. -/
def gr_mat_is_one_row_scan {α : Type} (ctx : GrCtx α) (status : Nat) (i j : Nat) :
    List α → Nat × Bool
  | [] => (status, false)
  | x :: xs =>
    let t := gr_mat_is_one_entry_test ctx i j x
    if t.1 = GR_SUCCESS ∧ t.2 = false then (GR_SUCCESS, true)
    else gr_mat_is_one_row_scan ctx (status ||| status) i (j + 1) xs

/-- The outer (row) loop of `gr_mat_is_one`: the C `break` leaves only the
inner loop, so scanning resumes with the next row while `equal` stays
latched at false. -/
def gr_mat_is_one_rows {α : Type} (ctx : GrCtx α) (status : Nat) (equal : Bool)
    (i : Nat) : List (List α) → Nat × Bool
  | [] => (status, equal)
  | row :: rest =>
    let t := gr_mat_is_one_row_scan ctx status i 0 row
    gr_mat_is_one_rows ctx t.1 (equal && !t.2) (i + 1) rest

/-- `gr_mat_is_one`: an empty matrix is one with Success; otherwise every
entry is tested against the identity pattern. -/
def gr_mat_is_one {α : Type} (ctx : GrCtx α) (mat : gr_mat α) : Nat × Bool :=
  if mat.r = 0 ∨ mat.c = 0 then (GR_SUCCESS, true)
  else gr_mat_is_one_rows ctx GR_SUCCESS true 0 mat.entries

/-- The row loop of `gr_mat_equal` over the paired rows of the two operands,
with the same break/`status |= status` structure as `gr_mat_is_zero_rows`. -/
def gr_mat_equal_rows {α : Type} (ctx : GrCtx α) (status : Nat) :
    List (List α × List α) → Nat × Bool
  | [] => (status, true)
  | p :: rest =>
    let t := gr_vec_equal ctx p.1 p.2
    if t.1 = GR_SUCCESS ∧ t.2 = false then (GR_SUCCESS, false)
    else gr_mat_equal_rows ctx (status ||| status) rest

/-- `gr_mat_equal`: on a dimension mismatch the matrices are reported not
equal with Success; an empty pair of matrices is equal; otherwise the rows
are compared pairwise. -/
def gr_mat_equal {α : Type} (ctx : GrCtx α) (mat1 mat2 : gr_mat α) : Nat × Bool :=
  if mat1.r ≠ mat2.r ∨ mat1.c ≠ mat2.c then (GR_SUCCESS, false)
  else if mat1.r = 0 ∨ mat1.c = 0 then (GR_SUCCESS, true)
  else gr_mat_equal_rows ctx GR_SUCCESS (mat1.entries.zip mat2.entries)

/-- `gr_mat_zero`: zeroes every row, or-aggregating the per-row statuses. -/
def gr_mat_zero {α : Type} (ctx : GrCtx α) (res : gr_mat α) : Nat × gr_mat α :=
  let rows := gr_rows_status (res.entries.map (fun row => gr_vec_zero ctx row))
  (rows.1, ⟨res.r, res.c, rows.2⟩)

/-- `gr_mat_set_si`: zero the matrix, set entry (0,0) from the small integer,
then copy entry (0,0) along the diagonal for i = 1 .. min(r,c)-1. -/
def gr_mat_set_si {α : Type} (ctx : GrCtx α) (res : gr_mat α) (v : Int) :
    Nat × gr_mat α :=
  let z := gr_mat_zero ctx res
  if 0 < res.r ∧ 0 < res.c then
    let sv := ctx.set_si v
    (List.range' 1 (min res.r res.c - 1)).foldl
      (fun acc i =>
        let cv := ctx.set_elem (gr_mat_entry ctx.init_val acc.2 0 0)
        (acc.1 ||| cv.1, gr_mat_set_entry acc.2 i i cv.2))
      (z.1 ||| sv.1, gr_mat_set_entry z.2 0 0 sv.2)
  else z

/-- `gr_mat_one`: set-small-integer with value 1. -/
def gr_mat_one {α : Type} (ctx : GrCtx α) (res : gr_mat α) : Nat × gr_mat α :=
  gr_mat_set_si ctx res 1

/-- `gr_mat_set`: dimension check, then a row-by-row copy.  (The source skips
the copy when `res` and `mat` are the same object; in that case the copy is
content-preserving for any context whose set operation is, so the model
always copies.) -/
def gr_mat_set {α : Type} (ctx : GrCtx α) (res mat : gr_mat α) : Nat × gr_mat α :=
  if res.r ≠ mat.r ∨ res.c ≠ mat.c then (GR_DOMAIN, res)
  else
    let rows := gr_rows_status (mat.entries.map (fun row => gr_vec_set ctx row))
    (rows.1, ⟨res.r, res.c, rows.2⟩)

/-- `gr_mat_add`: dimension check against both operands, then row-by-row
vector addition. -/
def gr_mat_add {α : Type} (ctx : GrCtx α) (res mat1 mat2 : gr_mat α) :
    Nat × gr_mat α :=
  if res.r ≠ mat1.r ∨ res.c ≠ mat1.c ∨ res.r ≠ mat2.r ∨ res.c ≠ mat2.c then
    (GR_DOMAIN, res)
  else
    let rows := gr_rows_status
      ((mat1.entries.zip mat2.entries).map (fun p => gr_vec_add ctx p.1 p.2))
    (rows.1, ⟨res.r, res.c, rows.2⟩)

/-- `gr_mat_sub`: dimension check against both operands, then row-by-row
vector subtraction. -/
def gr_mat_sub {α : Type} (ctx : GrCtx α) (res mat1 mat2 : gr_mat α) :
    Nat × gr_mat α :=
  if res.r ≠ mat1.r ∨ res.c ≠ mat1.c ∨ res.r ≠ mat2.r ∨ res.c ≠ mat2.c then
    (GR_DOMAIN, res)
  else
    let rows := gr_rows_status
      ((mat1.entries.zip mat2.entries).map (fun p => gr_vec_sub ctx p.1 p.2))
    (rows.1, ⟨res.r, res.c, rows.2⟩)

/-- `gr_mat_swap_entrywise`: dimension check, then exchange of the two
matrices' contents (the per-element swap cannot fail, so the status is the
dimension check's alone). -/
def gr_mat_swap_entrywise {α : Type} (ctx : GrCtx α) (mat1 mat2 : gr_mat α) :
    Nat × gr_mat α × gr_mat α :=
  if mat1.r ≠ mat2.r ∨ mat1.c ≠ mat2.c then (GR_DOMAIN, mat1, mat2)
  else (GR_SUCCESS, { mat1 with entries := mat2.entries },
        { mat2 with entries := mat1.entries })

/-- The non-aliased computation of `gr_mat_mul_classical`: dimension check,
zero result when the shared dimension is 0, direct per-cell products when it
is 1, and dot products of rows of A against columns of B otherwise (the
column extraction stands for the transposed scratch buffer of the source). -/
def gr_mat_mul_core {α : Type} (ctx : GrCtx α) (C A B : gr_mat α) : Nat × gr_mat α :=
  if A.c ≠ B.r ∨ A.r ≠ C.r ∨ B.c ≠ C.c then (GR_DOMAIN, C)
  else if B.r = 0 then gr_mat_zero ctx C
  else
    let rows :=
      if B.r = 1 then
        A.entries.map (fun arow =>
          gr_vec_run (fun b => ctx.mul (arow.getD 0 ctx.init_val) b)
            (B.entries.getD 0 []))
      else
        A.entries.map (fun arow =>
          gr_vec_run (fun j => gr_vec_dot ctx arow (gr_mat_col B j ctx.init_val))
            (List.range B.c))
    let rs := gr_rows_status rows
    (rs.1, ⟨C.r, C.c, rs.2⟩)

/-- `gr_mat_mul_classical`.  Whether the output buffer aliases an input is a
fact about C pointers, so the model takes it as the explicit flag `aliased`;
when set, the source's aliasing path is taken: compute into a freshly
initialised temporary, swap entrywise into C, and clear the temporary
(clearing always succeeds and is dropped by the pure model). -/
def gr_mat_mul_classical {α : Type} (ctx : GrCtx α) (aliased : Bool)
    (C A B : gr_mat α) : Nat × gr_mat α :=
  if A.c ≠ B.r ∨ A.r ≠ C.r ∨ B.c ≠ C.c then (GR_DOMAIN, C)
  else if B.r = 0 then gr_mat_zero ctx C
  else if aliased then
    let t := gr_mat_init A.r B.c ctx
    let r1 := gr_mat_mul_core ctx t.2 A B
    let sw := gr_mat_swap_entrywise ctx r1.2 C
    (t.1 ||| r1.1 ||| sw.1, sw.2.2)
  else gr_mat_mul_core ctx C A B

/-- The spec's reference computation for the aliasing claim: compute the
product into a disjoint fresh matrix, then copy its content over into C. -/
def gr_mat_mul_into_fresh_then_copy {α : Type} (ctx : GrCtx α)
    (C A B : gr_mat α) : Nat × gr_mat α :=
  let t := gr_mat_init A.r B.c ctx
  let r1 := gr_mat_mul_classical ctx false t.2 A B
  (t.1 ||| r1.1, { C with entries := r1.2.entries })

/-- One step of the pivot-search scan of `ca_mat_find_pivot`: the accumulator
is (best_row, unknown), with best_row = -1 while no provably nonzero entry
has been seen.  A Success zero-test with result false makes row `i` a
candidate, kept only if it beats the current best under `gr_cmp_repr`; any
non-Success test sets the unknown flag. -/
def ca_mat_find_pivot_step {α : Type} (ctx : GrCtx α) (mat : gr_mat α)
    (column : Nat) (acc : Int × Bool) (i : Nat) : Int × Bool :=
  let t := ctx.is_zero (gr_mat_entry ctx.init_val mat i column)
  if t.1 = GR_SUCCESS then
    if t.2 = false then
      if acc.1 = -1 ∨ gr_cmp_repr (gr_mat_entry ctx.init_val mat i column)
          (gr_mat_entry ctx.init_val mat acc.1.toNat column) < 0 then
        ((i : Int), acc.2)
      else acc
    else acc
  else (acc.1, true)

/-- `ca_mat_find_pivot`: `none` models the fatal `flint_abort` on an empty
row range; otherwise the scan runs over rows start_row .. end_row-1 and the
result is `some (pivot_row, status)` exactly as written by the source. -/
def ca_mat_find_pivot {α : Type} (ctx : GrCtx α) (mat : gr_mat α)
    (start_row end_row column : Nat) : Option (Int × Nat) :=
  if end_row ≤ start_row then none
  else
    let fin := (List.range' start_row (end_row - start_row)).foldl
      (ca_mat_find_pivot_step ctx mat column) (-1, false)
    if fin.1 = -1 then some (-1, if fin.2 then GR_UNABLE else GR_DOMAIN)
    else some (fin.1, GR_SUCCESS)

/-- `_gr_mat_swap_rows` with a permutation array: exchanges the two row
pointers and the two permutation entries when the indices differ. -/
def gr_mat_swap_rows {α : Type} (mat : gr_mat α) (perm : List Nat) (r s : Nat) :
    gr_mat α × List Nat :=
  if r ≠ s then
    ({ mat with entries :=
        (mat.entries.set s (mat.entries.getD r [])).set r (mat.entries.getD s []) },
     (perm.set s (perm.getD r 0)).set r (perm.getD s 0))
  else (mat, perm)

/-- The body of the elimination loop of `gr_mat_lu_classical` for one row
below the pivot: e := -(target[col] * d); the tail of the row (columns
col+1 .. n-1) gets the scalar-addmul of the pivot row's tail by e; the entry
in the pivot column is zeroed; and -e is stored at column rank1-1. -/
def gr_mat_lu_eliminate_row {α : Type} (ctx : GrCtx α) (pivot target : List α)
    (col rank1 : Nat) (d : α) : Nat × List α :=
  let e1 := ctx.mul (target.getD col ctx.init_val) d
  let e := ctx.neg e1.2
  let am := gr_vec_scalar_addmul ctx (target.drop (col + 1)) (pivot.drop (col + 1)) e.2
  let z := ctx.zero_val
  let ne := ctx.neg e.2
  (e1.1 ||| e.1 ||| am.1 ||| z.1 ||| ne.1,
   ((target.take (col + 1) ++ am.2).set col z.2).set (rank1 - 1) ne.2)

/-- The elimination loop of `gr_mat_lu_classical`: updates every row
j = row+1 .. m-1 in order with `gr_mat_lu_eliminate_row`, reading the pivot
row from the current state of the matrix. -/
def gr_mat_lu_eliminate {α : Type} (ctx : GrCtx α) (mat : gr_mat α)
    (row col rank1 m : Nat) (d : α) : Nat × gr_mat α :=
  (List.range' (row + 1) (m - (row + 1))).foldl
    (fun acc j =>
      let er := gr_mat_lu_eliminate_row ctx (acc.2.entries.getD row [])
        (acc.2.entries.getD j []) col rank1 d
      (acc.1 ||| er.1, { acc.2 with entries := acc.2.entries.set j er.2 }))
    (GR_SUCCESS, mat)

/-- The mutable state of the LU sweep: the working matrix, the permutation
array, the discovered rank, the row and column cursors, and the accumulated
status. -/
structure LuState (α : Type) where
  LU : gr_mat α
  P : List Nat
  rank : Nat
  row : Nat
  col : Nat
  status : Nat

/-- The `while (row < m && col < n)` sweep of `gr_mat_lu_classical`, with an
explicit fuel counter standing for the termination argument: every iteration
either stops or advances the column cursor, so the sweep from column cursor
`col` runs at most `n - col` iterations and any `fuel ≥ n - col` (the
top-level call passes `n`) makes this the exact while loop.  An Unable pivot
aborts with status Unable; a Domain pivot in full-rank-check mode reports
rank 0 with Success, and otherwise advances only the column cursor; a
Success pivot bumps the rank, swaps the pivot row into place, inverts the
pivot (any non-Success accumulated status stops the sweep), eliminates below,
and advances both cursors. -/
def gr_mat_lu_loop {α : Type} (ctx : GrCtx α) (m n : Nat)
    (full_rank_check : Bool) : Nat → LuState α → LuState α
  | 0, s => s
  | fuel + 1, s =>
    if s.row < m ∧ s.col < n then
      match ca_mat_find_pivot ctx s.LU s.row m s.col with
      | none => s
      | some pr =>
        if pr.2 = GR_UNABLE then { s with status := GR_UNABLE }
        else if pr.2 = GR_DOMAIN then
          if full_rank_check then { s with status := GR_SUCCESS, rank := 0 }
          else gr_mat_lu_loop ctx m n full_rank_check fuel { s with col := s.col + 1 }
        else
          let rank1 := s.rank + 1
          let sw :=
            if pr.1.toNat ≠ s.row then gr_mat_swap_rows s.LU s.P s.row pr.1.toNat
            else (s.LU, s.P)
          let d := ctx.inv (gr_mat_entry ctx.init_val sw.1 s.row s.col)
          let status1 := s.status ||| d.1
          if status1 ≠ GR_SUCCESS then
            { s with LU := sw.1, P := sw.2, rank := rank1, status := status1 }
          else
            let elim := gr_mat_lu_eliminate ctx sw.1 s.row s.col rank1 m d.2
            gr_mat_lu_loop ctx m n full_rank_check fuel
              { LU := elim.2, P := sw.2, rank := rank1, row := s.row + 1,
                col := s.col + 1, status := status1 ||| elim.1 }
    else s

/-- `gr_mat_lu_classical`: an empty input reports rank 0 with Success,
leaving the output buffers untouched; otherwise the input is copied into the
working buffer (the copy's status is discarded, as in the source), the
permutation array is initialised to the identity on 0 .. m-1, and the sweep
runs from the origin.  Returns (status, rank, LU, P). -/
def gr_mat_lu_classical {α : Type} (ctx : GrCtx α) (P : List Nat)
    (LU A : gr_mat α) (full_rank_check : Bool) : Nat × Nat × gr_mat α × List Nat :=
  if gr_mat_is_empty A then (GR_SUCCESS, 0, LU, P)
  else
    let m := A.r
    let n := A.c
    let st := gr_mat_set ctx LU A
    let P1 := List.range m ++ P.drop m
    let fin := gr_mat_lu_loop ctx m n full_rank_check n ⟨st.2, P1, 0, 0, 0, GR_SUCCESS⟩
    (fin.status, fin.rank, fin.LU, fin.P)

/-- The exact integers with every operation decidable and exact; inversion
succeeds exactly on the units 1 and -1. -/
def intCtx : GrCtx Int where
  is_zero := fun x => (GR_SUCCESS, decide (x = 0))
  is_one := fun x => (GR_SUCCESS, decide (x = 1))
  equal := fun x y => (GR_SUCCESS, decide (x = y))
  zero_val := (GR_SUCCESS, 0)
  set_si := fun v => (GR_SUCCESS, v)
  set_elem := fun x => (GR_SUCCESS, x)
  add := fun x y => (GR_SUCCESS, x + y)
  mul := fun x y => (GR_SUCCESS, x * y)
  neg := fun x => (GR_SUCCESS, -x)
  inv := fun x => if x = 1 ∨ x = -1 then (GR_SUCCESS, x) else (GR_DOMAIN, 0)
  init_val := 0

/-- The exact rationals; inversion fails (Domain) exactly at zero. -/
def ratCtx : GrCtx ℚ where
  is_zero := fun x => (GR_SUCCESS, decide (x = 0))
  is_one := fun x => (GR_SUCCESS, decide (x = 1))
  equal := fun x y => (GR_SUCCESS, decide (x = y))
  zero_val := (GR_SUCCESS, 0)
  set_si := fun v => (GR_SUCCESS, (v : ℚ))
  set_elem := fun x => (GR_SUCCESS, x)
  add := fun x y => (GR_SUCCESS, x + y)
  mul := fun x y => (GR_SUCCESS, x * y)
  neg := fun x => (GR_SUCCESS, -x)
  inv := fun x => if x = 0 then (GR_DOMAIN, 0) else (GR_SUCCESS, x⁻¹)
  init_val := 0

/-- Integers extended with an undecidable element: `none` stands for a value
whose predicates the ring cannot decide, so every test on it returns Unable;
arithmetic involving it stays undecidable. -/
def optCtx : GrCtx (Option Int) where
  is_zero := fun x => match x with
    | some v => (GR_SUCCESS, decide (v = 0))
    | none => (GR_UNABLE, false)
  is_one := fun x => match x with
    | some v => (GR_SUCCESS, decide (v = 1))
    | none => (GR_UNABLE, false)
  equal := fun x y => match x, y with
    | some v, some w => (GR_SUCCESS, decide (v = w))
    | _, _ => (GR_UNABLE, false)
  zero_val := (GR_SUCCESS, some 0)
  set_si := fun v => (GR_SUCCESS, some v)
  set_elem := fun x => (GR_SUCCESS, x)
  add := fun x y => match x, y with
    | some v, some w => (GR_SUCCESS, some (v + w))
    | _, _ => (GR_SUCCESS, none)
  mul := fun x y => match x, y with
    | some v, some w => (GR_SUCCESS, some (v * w))
    | _, _ => (GR_SUCCESS, none)
  neg := fun x => (GR_SUCCESS, x.map (fun v => -v))
  inv := fun x => match x with
    | some 1 => (GR_SUCCESS, some 1)
    | some (-1) => (GR_SUCCESS, some (-1))
    | _ => (GR_UNABLE, none)
  init_val := some 0

/-- C9: pivot search aborts fatally (modelled as `none`) exactly on an empty
row range `end_row ≤ start_row`; under the precondition `start_row < end_row`
the abort branch is unreachable and a status-carrying result is returned. -/
theorem ca_mat_find_pivot_abort_iff_empty_range {α : Type} (ctx : GrCtx α)
    (mat : gr_mat α) (start_row end_row column : Nat) :
    ca_mat_find_pivot ctx mat start_row end_row column = none ↔
      end_row ≤ start_row := by
  unfold ca_mat_find_pivot
  by_cases h : end_row ≤ start_row
  · simp [h]
  · simp only [if_neg h]
    constructor
    · intro hc
      by_cases hb : ((List.range' start_row (end_row - start_row)).foldl
          (ca_mat_find_pivot_step ctx mat column) (-1, false)).1 = -1 <;>
        simp [hb] at hc
    · intro hc
      exact absurd hc h

/-- C10: LU decomposition of a matrix with zero rows or zero columns returns
Success and rank 0 immediately, leaving both the LU working buffer and the
permutation array exactly as the caller passed them. -/
theorem gr_mat_lu_classical_empty_frame {α : Type} (ctx : GrCtx α)
    (P : List Nat) (LU A : gr_mat α) (full_rank_check : Bool)
    (h : A.r = 0 ∨ A.c = 0) :
    gr_mat_lu_classical ctx P LU A full_rank_check = (GR_SUCCESS, 0, LU, P) := by
  unfold gr_mat_lu_classical
  have he : gr_mat_is_empty A = true := by
    unfold gr_mat_is_empty
    rcases h with h | h <;> simp [h]
  rw [if_pos he]

theorem gr_mat_lu_classical_empty_frame_witness :
    gr_mat_lu_classical intCtx [7, 7] ⟨2, 3, [[9, 9, 9], [9, 9, 9]]⟩
      ⟨0, 3, []⟩ false = (GR_SUCCESS, 0, ⟨2, 3, [[9, 9, 9], [9, 9, 9]]⟩, [7, 7]) :=
  gr_mat_lu_classical_empty_frame intCtx [7, 7] ⟨2, 3, [[9, 9, 9], [9, 9, 9]]⟩
    ⟨0, 3, []⟩ false (Or.inl rfl)

/-- C1 (counterexample): `gr_mat_equal` on operands of mismatched dimensions
does not return Domain-failure; it writes a definite boolean false and
returns Success. -/
theorem gr_mat_equal_mismatch_not_domain :
    gr_mat_equal intCtx ⟨1, 1, [[0]]⟩ ⟨1, 2, [[0, 0]]⟩ = (GR_SUCCESS, false) ∧
      GR_SUCCESS ≠ GR_DOMAIN := by
  constructor
  · rfl
  · decide

/-- C1 (amended): add, sub, set and multiply compare all operand dimensions
first and on any mismatch return Domain-failure with the result operand
unchanged; equal compares dimensions first and on a mismatch returns Success
with the boolean result false. -/
theorem gr_mat_shape_check_contract {α : Type} (ctx : GrCtx α)
    (res mat1 mat2 : gr_mat α) :
    (res.r ≠ mat1.r ∨ res.c ≠ mat1.c ∨ res.r ≠ mat2.r ∨ res.c ≠ mat2.c →
      gr_mat_add ctx res mat1 mat2 = (GR_DOMAIN, res) ∧
      gr_mat_sub ctx res mat1 mat2 = (GR_DOMAIN, res)) ∧
    (res.r ≠ mat1.r ∨ res.c ≠ mat1.c →
      gr_mat_set ctx res mat1 = (GR_DOMAIN, res)) ∧
    (∀ aliased : Bool, mat1.c ≠ mat2.r ∨ mat1.r ≠ res.r ∨ mat2.c ≠ res.c →
      gr_mat_mul_classical ctx aliased res mat1 mat2 = (GR_DOMAIN, res)) ∧
    (mat1.r ≠ mat2.r ∨ mat1.c ≠ mat2.c →
      gr_mat_equal ctx mat1 mat2 = (GR_SUCCESS, false)) := by
  refine ⟨fun h => ⟨?_, ?_⟩, fun h => ?_, fun al h => ?_, fun h => ?_⟩
  · unfold gr_mat_add; rw [if_pos h]
  · unfold gr_mat_sub; rw [if_pos h]
  · unfold gr_mat_set; rw [if_pos h]
  · unfold gr_mat_mul_classical; rw [if_pos h]
  · unfold gr_mat_equal; rw [if_pos h]

theorem gr_mat_shape_check_contract_witness :
    gr_mat_add intCtx ⟨1, 1, [[0]]⟩ ⟨1, 2, [[0, 0]]⟩ ⟨1, 1, [[0]]⟩ =
      (GR_DOMAIN, ⟨1, 1, [[0]]⟩) ∧
    gr_mat_sub intCtx ⟨1, 1, [[0]]⟩ ⟨1, 2, [[0, 0]]⟩ ⟨1, 1, [[0]]⟩ =
      (GR_DOMAIN, ⟨1, 1, [[0]]⟩) ∧
    gr_mat_set intCtx ⟨1, 1, [[0]]⟩ ⟨1, 2, [[0, 0]]⟩ = (GR_DOMAIN, ⟨1, 1, [[0]]⟩) ∧
    gr_mat_mul_classical intCtx false ⟨1, 1, [[0]]⟩ ⟨1, 2, [[0, 0]]⟩ ⟨1, 1, [[0]]⟩ =
      (GR_DOMAIN, ⟨1, 1, [[0]]⟩) ∧
    gr_mat_equal intCtx ⟨1, 2, [[0, 0]]⟩ ⟨1, 1, [[0]]⟩ = (GR_SUCCESS, false) := by
  have h := gr_mat_shape_check_contract intCtx ⟨1, 1, [[0]]⟩ ⟨1, 2, [[0, 0]]⟩
    ⟨1, 1, [[0]]⟩
  exact ⟨(h.1 (by decide)).1, (h.1 (by decide)).2, h.2.1 (by decide),
    h.2.2.1 false (by decide), h.2.2.2 (by decide)⟩

/-- C2: the source's row loops update the aggregate with `status |= status`
(a no-op) instead of `status |= this_status`, so an Unable sub-status is
dropped: on a 1×1 matrix whose sole entry is undecidable, the row-level
zero test reports Unable, yet `gr_mat_is_zero`, `gr_mat_is_one` and
`gr_mat_equal` all return (Success, true). -/
theorem gr_mat_predicates_drop_unable :
    (gr_vec_is_zero optCtx [none]).1 = GR_UNABLE ∧
    (optCtx.is_one none).1 = GR_UNABLE ∧
    (gr_vec_equal optCtx [none] [none]).1 = GR_UNABLE ∧
    gr_mat_is_zero optCtx ⟨1, 1, [[none]]⟩ = (GR_SUCCESS, true) ∧
    gr_mat_is_one optCtx ⟨1, 1, [[none]]⟩ = (GR_SUCCESS, true) ∧
    gr_mat_equal optCtx ⟨1, 1, [[none]]⟩ ⟨1, 1, [[none]]⟩ = (GR_SUCCESS, true) := by
  refine ⟨rfl, rfl, rfl, rfl, rfl, rfl⟩

/-- If some row of the scan tests to a definite nonzero with Success, the
row loop of `gr_mat_is_zero` returns (Success, false) whatever the other
rows (in particular earlier Unable rows) return. -/
theorem gr_mat_is_zero_rows_definite_false {α : Type} (ctx : GrCtx α)
    (rows : List (List α)) (status : Nat)
    (h : ∃ row ∈ rows, gr_vec_is_zero ctx row = (GR_SUCCESS, false)) :
    gr_mat_is_zero_rows ctx status rows = (GR_SUCCESS, false) := by
  induction rows generalizing status with
  | nil => simp at h
  | cons row rest ih =>
    unfold gr_mat_is_zero_rows
    by_cases hc : (gr_vec_is_zero ctx row).1 = GR_SUCCESS ∧
        (gr_vec_is_zero ctx row).2 = false
    · simp [hc]
    · simp only [if_neg hc]
      apply ih
      rcases h with ⟨w, hw, hweq⟩
      rcases List.mem_cons.mp hw with hw | hw
      · exact absurd ⟨by rw [← hw, hweq], by rw [← hw, hweq]⟩ hc
      · exact ⟨w, hw, hweq⟩

/-- The analogous fact for the row loop of `gr_mat_equal`. -/
theorem gr_mat_equal_rows_definite_false {α : Type} (ctx : GrCtx α)
    (ps : List (List α × List α)) (status : Nat)
    (h : ∃ p ∈ ps, gr_vec_equal ctx p.1 p.2 = (GR_SUCCESS, false)) :
    gr_mat_equal_rows ctx status ps = (GR_SUCCESS, false) := by
  induction ps generalizing status with
  | nil => simp at h
  | cons p rest ih =>
    unfold gr_mat_equal_rows
    by_cases hc : (gr_vec_equal ctx p.1 p.2).1 = GR_SUCCESS ∧
        (gr_vec_equal ctx p.1 p.2).2 = false
    · simp [hc]
    · simp only [if_neg hc]
      apply ih
      rcases h with ⟨w, hw, hweq⟩
      rcases List.mem_cons.mp hw with hw | hw
      · exact absurd ⟨by rw [← hw, hweq], by rw [← hw, hweq]⟩ hc
      · exact ⟨w, hw, hweq⟩

/-- C4: scanning does not stop at a row whose test returned Unable — if any
row/row-pair of a nonempty matrix tests to a definite false with Success,
`gr_mat_is_zero` (resp. `gr_mat_equal`) returns (Success, false), regardless
of Unable results at the other rows. -/
theorem gr_mat_definite_false_not_blocked {α : Type} (ctx : GrCtx α)
    (mat mat2 : gr_mat α) :
    (¬(mat.r = 0 ∨ mat.c = 0) →
      (∃ row ∈ mat.entries, gr_vec_is_zero ctx row = (GR_SUCCESS, false)) →
      gr_mat_is_zero ctx mat = (GR_SUCCESS, false)) ∧
    (mat.r = mat2.r → mat.c = mat2.c → ¬(mat.r = 0 ∨ mat.c = 0) →
      (∃ p ∈ mat.entries.zip mat2.entries,
        gr_vec_equal ctx p.1 p.2 = (GR_SUCCESS, false)) →
      gr_mat_equal ctx mat mat2 = (GR_SUCCESS, false)) := by
  constructor
  · intro hne hex
    unfold gr_mat_is_zero
    rw [if_neg hne]
    exact gr_mat_is_zero_rows_definite_false ctx mat.entries GR_SUCCESS hex
  · intro hr hc hne hex
    unfold gr_mat_equal
    rw [if_neg (by simp [hr, hc]), if_neg hne]
    exact gr_mat_equal_rows_definite_false ctx _ GR_SUCCESS hex

theorem gr_mat_definite_false_not_blocked_witness :
    gr_mat_is_zero optCtx ⟨2, 1, [[none], [some 1]]⟩ = (GR_SUCCESS, false) ∧
    gr_mat_equal optCtx ⟨2, 1, [[none], [some 1]]⟩ ⟨2, 1, [[none], [some 0]]⟩ =
      (GR_SUCCESS, false) := by
  have h := gr_mat_definite_false_not_blocked optCtx
    ⟨2, 1, [[none], [some 1]]⟩ ⟨2, 1, [[none], [some 0]]⟩
  exact ⟨h.1 (by decide) ⟨[some 1], by decide, by decide⟩,
    h.2 rfl rfl (by decide) ⟨([some 1], [some 0]), by decide, by decide⟩⟩

/-- C5: when pivot search over the remaining rows of the current column
returns Domain-failure, the LU sweep in full-rank-check mode stops at once
with status Success and rank 0, and otherwise continues with the column
cursor advanced and the row cursor (and rank, matrix, permutation, status)
unchanged. -/
theorem gr_mat_lu_loop_domain_pivot {α : Type} (ctx : GrCtx α)
    (m n fuel : Nat) (s : LuState α) (p : Int)
    (hrow : s.row < m) (hcol : s.col < n)
    (hpiv : ca_mat_find_pivot ctx s.LU s.row m s.col = some (p, GR_DOMAIN)) :
    gr_mat_lu_loop ctx m n true (fuel + 1) s =
      { s with status := GR_SUCCESS, rank := 0 } ∧
    gr_mat_lu_loop ctx m n false (fuel + 1) s =
      gr_mat_lu_loop ctx m n false fuel { s with col := s.col + 1 } := by
  have h12 : s.row < m ∧ s.col < n := ⟨hrow, hcol⟩
  constructor
  · simp only [gr_mat_lu_loop, if_pos h12, hpiv]
    simp [GR_DOMAIN, GR_UNABLE]
  · simp only [gr_mat_lu_loop, if_pos h12, hpiv]
    simp [GR_DOMAIN, GR_UNABLE]

theorem gr_mat_lu_loop_domain_pivot_witness :
    gr_mat_lu_loop intCtx 2 2 true 2 ⟨⟨2, 2, [[0, 1], [0, 2]]⟩, [0, 1], 0, 0, 0, GR_SUCCESS⟩ =
      { LU := ⟨2, 2, [[0, 1], [0, 2]]⟩, P := [0, 1], rank := 0, row := 0, col := 0,
        status := GR_SUCCESS } ∧
    gr_mat_lu_loop intCtx 2 2 false 2 ⟨⟨2, 2, [[0, 1], [0, 2]]⟩, [0, 1], 0, 0, 0, GR_SUCCESS⟩ =
      gr_mat_lu_loop intCtx 2 2 false 1
        ⟨⟨2, 2, [[0, 1], [0, 2]]⟩, [0, 1], 0, 0, 1, GR_SUCCESS⟩ :=
  gr_mat_lu_loop_domain_pivot intCtx 2 2 1
    ⟨⟨2, 2, [[0, 1], [0, 2]]⟩, [0, 1], 0, 0, 0, GR_SUCCESS⟩ (-1)
    (by decide) (by decide) (by decide)

/-- The unknown flag after one pivot-scan step: set by any non-Success
zero-test, otherwise carried through. -/
theorem ca_mat_find_pivot_step_snd {α : Type} (ctx : GrCtx α) (mat : gr_mat α)
    (column : Nat) (acc : Int × Bool) (i : Nat) :
    (ca_mat_find_pivot_step ctx mat column acc i).2 =
      if (ctx.is_zero (gr_mat_entry ctx.init_val mat i column)).1 = GR_SUCCESS
      then acc.2 else true := by
  unfold ca_mat_find_pivot_step
  by_cases h1 : (ctx.is_zero (gr_mat_entry ctx.init_val mat i column)).1 = GR_SUCCESS
  · simp only [if_pos h1]
    split
    · split <;> rfl
    · rfl
  · simp only [if_neg h1]

/-- The best-row register after one pivot-scan step: a provably nonzero row
is recorded only while the register is still empty (the comparator stub never
prefers a later candidate); otherwise the register is carried through. -/
theorem ca_mat_find_pivot_step_fst {α : Type} (ctx : GrCtx α) (mat : gr_mat α)
    (column : Nat) (acc : Int × Bool) (i : Nat) :
    (ca_mat_find_pivot_step ctx mat column acc i).1 =
      if ctx.is_zero (gr_mat_entry ctx.init_val mat i column) = (GR_SUCCESS, false) ∧
          acc.1 = -1
      then (i : Int) else acc.1 := by
  unfold ca_mat_find_pivot_step
  by_cases h1 : (ctx.is_zero (gr_mat_entry ctx.init_val mat i column)).1 = GR_SUCCESS
  · by_cases h2 : (ctx.is_zero (gr_mat_entry ctx.init_val mat i column)).2 = false
    · by_cases h3 : acc.1 = -1
      · simp [h1, h2, h3, Prod.ext_iff, gr_cmp_repr]
      · simp [h1, h2, h3, Prod.ext_iff, gr_cmp_repr]
    · simp [h1, h2, Prod.ext_iff]
  · simp [h1, Prod.ext_iff]

/-- Across the whole scan, the unknown flag is set exactly when some scanned
row's zero-test did not return Success. -/
theorem ca_mat_find_pivot_fold_unknown {α : Type} (ctx : GrCtx α)
    (mat : gr_mat α) (column : Nat) (l : List Nat) :
    ∀ acc : Int × Bool,
      (l.foldl (ca_mat_find_pivot_step ctx mat column) acc).2 = true ↔
        (acc.2 = true ∨ ∃ i ∈ l,
          (ctx.is_zero (gr_mat_entry ctx.init_val mat i column)).1 ≠ GR_SUCCESS) := by
  induction l with
  | nil => intro acc; simp
  | cons i l ih =>
    intro acc
    rw [List.foldl_cons, ih]
    rw [ca_mat_find_pivot_step_snd]
    by_cases h1 : (ctx.is_zero (gr_mat_entry ctx.init_val mat i column)).1 = GR_SUCCESS
    · simp only [if_pos h1]
      constructor
      · rintro (h | ⟨j, hj, hjs⟩)
        · exact Or.inl h
        · exact Or.inr ⟨j, List.mem_cons_of_mem i hj, hjs⟩
      · rintro (h | ⟨j, hj, hjs⟩)
        · exact Or.inl h
        · rcases List.mem_cons.mp hj with rfl | hj
          · exact absurd h1 hjs
          · exact Or.inr ⟨j, hj, hjs⟩
    · simp only [if_neg h1]
      constructor
      · intro _; exact Or.inr ⟨i, List.mem_cons_self i l, h1⟩
      · intro _; exact Or.inl trivial

/-- Across the whole scan, the best-row register ends empty exactly when it
started empty and no scanned row was proven nonzero. -/
theorem ca_mat_find_pivot_fold_none {α : Type} (ctx : GrCtx α)
    (mat : gr_mat α) (column : Nat) (l : List Nat) :
    ∀ acc : Int × Bool,
      (l.foldl (ca_mat_find_pivot_step ctx mat column) acc).1 = -1 ↔
        (acc.1 = -1 ∧ ∀ i ∈ l,
          ctx.is_zero (gr_mat_entry ctx.init_val mat i column) ≠ (GR_SUCCESS, false)) := by
  induction l with
  | nil => intro acc; simp
  | cons i l ih =>
    intro acc
    rw [List.foldl_cons, ih]
    rw [ca_mat_find_pivot_step_fst]
    by_cases hg : ctx.is_zero (gr_mat_entry ctx.init_val mat i column) = (GR_SUCCESS, false)
    · by_cases h3 : acc.1 = -1
      · have hc : ctx.is_zero (gr_mat_entry ctx.init_val mat i column) = (GR_SUCCESS, false) ∧
            acc.1 = -1 := ⟨hg, h3⟩
        rw [if_pos hc]
        constructor
        · rintro ⟨h, _⟩
          exact absurd h (by omega)
        · rintro ⟨_, hall⟩
          exact absurd hg (hall i (List.mem_cons_self i l))
      · have hc : ¬(ctx.is_zero (gr_mat_entry ctx.init_val mat i column) = (GR_SUCCESS, false) ∧
            acc.1 = -1) := fun hh => h3 hh.2
        rw [if_neg hc]
        constructor
        · rintro ⟨h, _⟩; exact absurd h h3
        · rintro ⟨h, _⟩; exact absurd h h3
    · have hc : ¬(ctx.is_zero (gr_mat_entry ctx.init_val mat i column) = (GR_SUCCESS, false) ∧
          acc.1 = -1) := fun hh => hg hh.1
      rw [if_neg hc]
      constructor
      · rintro ⟨h3, hall⟩
        refine ⟨h3, fun j hj => ?_⟩
        rcases List.mem_cons.mp hj with rfl | hj
        · exact hg
        · exact hall j hj
      · rintro ⟨h3, hall⟩
        exact ⟨h3, fun j hj => hall j (List.mem_cons_of_mem i hj)⟩

/-- Across the whole scan, the best-row register either keeps its initial
value or holds a scanned row that was proven nonzero. -/
theorem ca_mat_find_pivot_fold_valid {α : Type} (ctx : GrCtx α)
    (mat : gr_mat α) (column : Nat) (l : List Nat) :
    ∀ acc : Int × Bool,
      (l.foldl (ca_mat_find_pivot_step ctx mat column) acc).1 = acc.1 ∨
        ∃ j ∈ l, (l.foldl (ca_mat_find_pivot_step ctx mat column) acc).1 = (j : Int) ∧
          ctx.is_zero (gr_mat_entry ctx.init_val mat j column) = (GR_SUCCESS, false) := by
  induction l with
  | nil => intro acc; exact Or.inl rfl
  | cons i l ih =>
    intro acc
    rw [List.foldl_cons]
    rcases ih (ca_mat_find_pivot_step ctx mat column acc i) with h | ⟨j, hj, hje, hjg⟩
    · by_cases hc : ctx.is_zero (gr_mat_entry ctx.init_val mat i column) = (GR_SUCCESS, false) ∧
          acc.1 = -1
      · refine Or.inr ⟨i, List.mem_cons_self i l, ?_, hc.1⟩
        rw [h, ca_mat_find_pivot_step_fst, if_pos hc]
      · refine Or.inl ?_
        rw [h, ca_mat_find_pivot_step_fst, if_neg hc]
    · exact Or.inr ⟨j, List.mem_cons_of_mem i hj, hje, hjg⟩

/-- C3: over a nonempty row range, pivot search returns Success with the
index of a row proven nonzero whenever one exists; Domain-failure when no
row is provably nonzero and every row's zero-test returned Success; and
Unable when no row is provably nonzero but some row's zero-test returned
Unable. -/
theorem ca_mat_find_pivot_trichotomy {α : Type} (ctx : GrCtx α) (mat : gr_mat α)
    (start_row end_row column : Nat) (hne : start_row < end_row) :
    ((∃ i, start_row ≤ i ∧ i < end_row ∧
        ctx.is_zero (gr_mat_entry ctx.init_val mat i column) = (GR_SUCCESS, false)) →
      ∃ j, start_row ≤ j ∧ j < end_row ∧
        ctx.is_zero (gr_mat_entry ctx.init_val mat j column) = (GR_SUCCESS, false) ∧
        ca_mat_find_pivot ctx mat start_row end_row column =
          some ((j : Int), GR_SUCCESS)) ∧
    ((∀ i, start_row ≤ i → i < end_row →
        ctx.is_zero (gr_mat_entry ctx.init_val mat i column) ≠ (GR_SUCCESS, false)) →
      (∀ i, start_row ≤ i → i < end_row →
        (ctx.is_zero (gr_mat_entry ctx.init_val mat i column)).1 = GR_SUCCESS) →
      ca_mat_find_pivot ctx mat start_row end_row column = some (-1, GR_DOMAIN)) ∧
    ((∀ i, start_row ≤ i → i < end_row →
        ctx.is_zero (gr_mat_entry ctx.init_val mat i column) ≠ (GR_SUCCESS, false)) →
      (∃ i, start_row ≤ i ∧ i < end_row ∧
        (ctx.is_zero (gr_mat_entry ctx.init_val mat i column)).1 = GR_UNABLE) →
      ca_mat_find_pivot ctx mat start_row end_row column = some (-1, GR_UNABLE)) := by
  have hm : ∀ i : Nat, i ∈ List.range' start_row (end_row - start_row) ↔
      start_row ≤ i ∧ i < end_row := by
    intro i; rw [List.mem_range'_1]; omega
  unfold ca_mat_find_pivot
  rw [if_neg (by omega)]
  refine ⟨?_, ?_, ?_⟩
  · rintro ⟨i, hi1, hi2, hig⟩
    have hnot : ¬((List.range' start_row (end_row - start_row)).foldl
        (ca_mat_find_pivot_step ctx mat column) (-1, false)).1 = -1 := by
      rw [ca_mat_find_pivot_fold_none]
      rintro ⟨_, hall⟩
      exact hall i ((hm i).mpr ⟨hi1, hi2⟩) hig
    rcases ca_mat_find_pivot_fold_valid ctx mat column
        (List.range' start_row (end_row - start_row)) (-1, false) with h | ⟨j, hj, hje, hjg⟩
    · exact absurd h hnot
    · rcases (hm j).mp hj with ⟨hj1, hj2⟩
      refine ⟨j, hj1, hj2, hjg, ?_⟩
      rw [if_neg hnot, hje]
  · intro hng hall
    have h1 : ((List.range' start_row (end_row - start_row)).foldl
        (ca_mat_find_pivot_step ctx mat column) (-1, false)).1 = -1 := by
      rw [ca_mat_find_pivot_fold_none]
      exact ⟨rfl, fun i hi => hng i ((hm i).mp hi).1 ((hm i).mp hi).2⟩
    have h2 : ((List.range' start_row (end_row - start_row)).foldl
        (ca_mat_find_pivot_step ctx mat column) (-1, false)).2 = false := by
      rw [Bool.eq_false_iff]
      intro hcon
      rcases (ca_mat_find_pivot_fold_unknown ctx mat column
          (List.range' start_row (end_row - start_row)) (-1, false)).mp hcon with
        h | ⟨i, hi, his⟩
      · simp at h
      · exact his (hall i ((hm i).mp hi).1 ((hm i).mp hi).2)
    rw [if_pos h1, h2]
    rfl
  · intro hng hex
    have h1 : ((List.range' start_row (end_row - start_row)).foldl
        (ca_mat_find_pivot_step ctx mat column) (-1, false)).1 = -1 := by
      rw [ca_mat_find_pivot_fold_none]
      exact ⟨rfl, fun i hi => hng i ((hm i).mp hi).1 ((hm i).mp hi).2⟩
    have h2 : ((List.range' start_row (end_row - start_row)).foldl
        (ca_mat_find_pivot_step ctx mat column) (-1, false)).2 = true := by
      rcases hex with ⟨i, hi1, hi2, his⟩
      refine (ca_mat_find_pivot_fold_unknown ctx mat column
          (List.range' start_row (end_row - start_row)) (-1, false)).mpr ?_
      refine Or.inr ⟨i, (hm i).mpr ⟨hi1, hi2⟩, ?_⟩
      rw [his]
      simp [GR_UNABLE, GR_SUCCESS]
    rw [if_pos h1, h2]
    rfl

theorem ca_mat_find_pivot_trichotomy_witness :
    (ca_mat_find_pivot intCtx ⟨2, 1, [[0], [3]]⟩ 0 2 0).isSome = true ∧
    ca_mat_find_pivot intCtx ⟨2, 1, [[0], [0]]⟩ 0 2 0 = some (-1, GR_DOMAIN) ∧
    ca_mat_find_pivot optCtx ⟨2, 1, [[none], [some 0]]⟩ 0 2 0 =
      some (-1, GR_UNABLE) := by
  refine ⟨?_, ?_, ?_⟩
  · obtain ⟨j, _, _, _, he⟩ := (ca_mat_find_pivot_trichotomy intCtx
      ⟨2, 1, [[0], [3]]⟩ 0 2 0 (by decide)).1 ⟨1, by decide, by decide, by decide⟩
    rw [he]
    rfl
  · exact (ca_mat_find_pivot_trichotomy intCtx ⟨2, 1, [[0], [0]]⟩ 0 2 0
      (by decide)).2.1 (fun i _ h2 => by interval_cases i <;> decide)
      (fun i _ h2 => by interval_cases i <;> decide)
  · exact (ca_mat_find_pivot_trichotomy optCtx ⟨2, 1, [[none], [some 0]]⟩ 0 2 0
      (by decide)).2.2 (fun i _ h2 => by interval_cases i <;> decide)
      ⟨0, by decide, by decide, by decide⟩

/-- Folding a constant or-update depends only on whether the list is empty. -/
theorem foldl_or_const {β : Type} (k : Nat) :
    ∀ (l : List β) (a : Nat),
      l.foldl (fun s _ => s ||| k) a = if l.length = 0 then a else a ||| k := by
  intro l
  induction l with
  | nil => intro a; rfl
  | cons x xs ih =>
    intro a
    rw [List.foldl_cons, ih]
    by_cases h : xs.length = 0
    · simp [h]
    · simp [h, Nat.lor_assoc, Nat.or_self]

/-- The value and status of `gr_vec_zero` depend only on the row's length. -/
theorem gr_vec_zero_char {α : Type} (ctx : GrCtx α) (row : List α) :
    gr_vec_zero ctx row =
      ((if row.length = 0 then GR_SUCCESS else GR_SUCCESS ||| ctx.zero_val.1),
        List.replicate row.length ctx.zero_val.2) := by
  unfold gr_vec_zero gr_vec_run
  rw [List.map_const']
  congr 1
  exact foldl_or_const ctx.zero_val.1 row GR_SUCCESS

/-- Two rows of equal length zero to the same result. -/
theorem gr_vec_zero_eq_of_length {α : Type} (ctx : GrCtx α) {row1 row2 : List α}
    (h : row1.length = row2.length) :
    gr_vec_zero ctx row1 = gr_vec_zero ctx row2 := by
  rw [gr_vec_zero_char, gr_vec_zero_char, h]

/-- Two row lists of the same shape zero to the same per-row results. -/
theorem map_gr_vec_zero_eq_of_shape {α : Type} (ctx : GrCtx α)
    {l1 l2 : List (List α)} (hlen : l1.length = l2.length)
    (hrows : ∀ k, (l1.getD k []).length = (l2.getD k []).length) :
    l1.map (gr_vec_zero ctx) = l2.map (gr_vec_zero ctx) := by
  apply List.ext_getElem?
  intro n
  rw [List.getElem?_map, List.getElem?_map]
  rcases h1 : l1[n]? with _ | row1
  · have hn : l1.length ≤ n := List.getElem?_eq_none_iff.mp h1
    rw [List.getElem?_eq_none (hlen ▸ hn)]
  · rcases h2 : l2[n]? with _ | row2
    · have hn2 : l2.length ≤ n := List.getElem?_eq_none_iff.mp h2
      have hn1 : n < l1.length := (List.getElem?_eq_some.mp h1).1
      omega
    · have e1 : l1.getD n [] = row1 := by rw [List.getD_eq_getElem?_getD, h1]; rfl
      have e2 : l2.getD n [] = row2 := by rw [List.getD_eq_getElem?_getD, h2]; rfl
      have := hrows n
      rw [e1, e2] at this
      simp only [Option.map_some']
      rw [gr_vec_zero_eq_of_length ctx this]

/-- The result of the non-aliased multiplication kernel always keeps the
dimensions of the output operand. -/
theorem gr_mat_mul_core_dims {α : Type} (ctx : GrCtx α) (C A B : gr_mat α) :
    (gr_mat_mul_core ctx C A B).2.r = C.r ∧ (gr_mat_mul_core ctx C A B).2.c = C.c := by
  unfold gr_mat_mul_core
  split
  · exact ⟨rfl, rfl⟩
  · split
    · exact ⟨rfl, rfl⟩
    · exact ⟨rfl, rfl⟩

/-- With the alias flag off, `gr_mat_mul_classical` is the plain kernel. -/
theorem gr_mat_mul_classical_false_eq_core {α : Type} (ctx : GrCtx α)
    (C A B : gr_mat α) :
    gr_mat_mul_classical ctx false C A B = gr_mat_mul_core ctx C A B := by
  unfold gr_mat_mul_classical
  by_cases h1 : A.c ≠ B.r ∨ A.r ≠ C.r ∨ B.c ≠ C.c
  · rw [if_pos h1]
    unfold gr_mat_mul_core
    rw [if_pos h1]
  · rw [if_neg h1]
    by_cases h2 : B.r = 0
    · rw [if_pos h2]
      unfold gr_mat_mul_core
      rw [if_neg h1, if_pos h2]
    · rw [if_neg h2]
      rfl

/-- Entrywise swap of two matrices of equal dimensions: Success, contents
exchanged. -/
theorem gr_mat_swap_entrywise_of_dims {α : Type} (ctx : GrCtx α)
    (M N : gr_mat α) (h1 : M.r = N.r) (h2 : M.c = N.c) :
    gr_mat_swap_entrywise ctx M N =
      (GR_SUCCESS, { M with entries := N.entries }, { N with entries := M.entries }) := by
  unfold gr_mat_swap_entrywise
  rw [if_neg (by push_neg; exact ⟨h1, h2⟩)]

/-- C7: for compatible shapes, multiplying into storage that aliases an input
(the source's temporary-and-entrywise-swap path) returns exactly the status
and the entries of computing the product into a disjoint fresh matrix and
copying it over. -/
theorem gr_mat_mul_classical_aliased_eq_fresh_copy {α : Type} (ctx : GrCtx α)
    (C A B : gr_mat α) (hac : A.c = B.r) (har : A.r = C.r) (hbc : B.c = C.c)
    (hwf : C.WF) :
    gr_mat_mul_classical ctx true C A B =
      gr_mat_mul_into_fresh_then_copy ctx C A B := by
  have hdims : ¬(A.c ≠ B.r ∨ A.r ≠ C.r ∨ B.c ≠ C.c) := by
    push_neg; exact ⟨hac, har, hbc⟩
  have hdT : ¬(A.c ≠ B.r ∨ A.r ≠ (gr_mat_init A.r B.c ctx).2.r ∨
      B.c ≠ (gr_mat_init A.r B.c ctx).2.c) := by
    push_neg; exact ⟨hac, rfl, rfl⟩
  have RHS_eq : gr_mat_mul_into_fresh_then_copy ctx C A B =
      ((gr_mat_init A.r B.c ctx).1 |||
         (gr_mat_mul_classical ctx false (gr_mat_init A.r B.c ctx).2 A B).1,
       { C with entries :=
          (gr_mat_mul_classical ctx false (gr_mat_init A.r B.c ctx).2 A B).2.entries }) :=
    rfl
  by_cases hbr : B.r = 0
  · have LHS0 : gr_mat_mul_classical ctx true C A B = gr_mat_zero ctx C := by
      unfold gr_mat_mul_classical
      rw [if_neg hdims, if_pos hbr]
    have core0 : gr_mat_mul_core ctx (gr_mat_init A.r B.c ctx).2 A B =
        gr_mat_zero ctx (gr_mat_init A.r B.c ctx).2 := by
      unfold gr_mat_mul_core
      rw [if_neg hdT, if_pos hbr]
    have hmap : C.entries.map (gr_vec_zero ctx) =
        (gr_mat_init A.r B.c ctx).2.entries.map (gr_vec_zero ctx) := by
      apply map_gr_vec_zero_eq_of_shape
      · show C.entries.length = (List.replicate A.r (List.replicate B.c ctx.init_val)).length
        rw [hwf.1, List.length_replicate, har]
      · intro k
        by_cases hk : k < C.entries.length
        · have hmem : C.entries.getD k [] ∈ C.entries := by
            rw [List.getD_eq_getElem _ _ hk]
            exact List.getElem_mem hk
          have hcl : (C.entries.getD k []).length = C.c := hwf.2 _ hmem
          have hkT : k < A.r := by
            rw [hwf.1] at hk; omega
          have hTr : (gr_mat_init A.r B.c ctx).2.entries.getD k [] =
              List.replicate B.c ctx.init_val := by
            show (List.replicate A.r (List.replicate B.c ctx.init_val)).getD k [] = _
            rw [List.getD_eq_getElem?_getD, List.getElem?_replicate_of_lt hkT]
            rfl
          rw [hcl, hTr, List.length_replicate, hbc]
        · have h1 : C.entries.getD k [] = [] :=
            List.getD_eq_default _ _ (le_of_not_lt hk)
          have h2 : (gr_mat_init A.r B.c ctx).2.entries.getD k [] = [] := by
            apply List.getD_eq_default
            show (List.replicate A.r (List.replicate B.c ctx.init_val)).length ≤ k
            rw [List.length_replicate, hwf.1] at *
            omega
          rw [h1, h2]
    rw [LHS0, RHS_eq, gr_mat_mul_classical_false_eq_core, core0]
    show ((gr_rows_status (C.entries.map (gr_vec_zero ctx))).1,
        (⟨C.r, C.c, (gr_rows_status (C.entries.map (gr_vec_zero ctx))).2⟩ : gr_mat α)) =
      ((gr_mat_init A.r B.c ctx).1 |||
         (gr_rows_status ((gr_mat_init A.r B.c ctx).2.entries.map (gr_vec_zero ctx))).1,
       ⟨C.r, C.c,
         (gr_rows_status ((gr_mat_init A.r B.c ctx).2.entries.map (gr_vec_zero ctx))).2⟩)
    rw [hmap]
    simp [gr_mat_init, GR_SUCCESS]
  · have LHS_eq : gr_mat_mul_classical ctx true C A B =
        ((gr_mat_init A.r B.c ctx).1 |||
           (gr_mat_mul_core ctx (gr_mat_init A.r B.c ctx).2 A B).1 |||
           (gr_mat_swap_entrywise ctx
             (gr_mat_mul_core ctx (gr_mat_init A.r B.c ctx).2 A B).2 C).1,
         (gr_mat_swap_entrywise ctx
           (gr_mat_mul_core ctx (gr_mat_init A.r B.c ctx).2 A B).2 C).2.2) := by
      unfold gr_mat_mul_classical
      rw [if_neg hdims, if_neg hbr]
      rfl
    have hdcore := gr_mat_mul_core_dims ctx (gr_mat_init A.r B.c ctx).2 A B
    rw [LHS_eq, RHS_eq, gr_mat_mul_classical_false_eq_core,
      gr_mat_swap_entrywise_of_dims ctx _ C (hdcore.1.trans har) (hdcore.2.trans hbc)]
    simp [gr_mat_init, GR_SUCCESS]

theorem gr_mat_mul_classical_aliased_eq_fresh_copy_witness :
    gr_mat_mul_classical intCtx true ⟨2, 2, [[1, 2], [3, 4]]⟩
        ⟨2, 2, [[1, 2], [3, 4]]⟩ ⟨2, 2, [[0, 1], [1, 0]]⟩ =
      gr_mat_mul_into_fresh_then_copy intCtx ⟨2, 2, [[1, 2], [3, 4]]⟩
        ⟨2, 2, [[1, 2], [3, 4]]⟩ ⟨2, 2, [[0, 1], [1, 0]]⟩ :=
  gr_mat_mul_classical_aliased_eq_fresh_copy intCtx ⟨2, 2, [[1, 2], [3, 4]]⟩
    ⟨2, 2, [[1, 2], [3, 4]]⟩ ⟨2, 2, [[0, 1], [1, 0]]⟩ rfl rfl rfl (by decide)

/-- `getD` after an in-range `set` at the same index. -/
theorem getD_set_self {β : Type} (l : List β) (i : Nat) (x d : β)
    (h : i < l.length) : (l.set i x).getD i d = x := by
  rw [List.getD_eq_getElem?_getD, List.getElem?_set_self h]
  rfl

/-- `getD` after a `set` at a different index. -/
theorem getD_set_ne {β : Type} (l : List β) {i i' : Nat} (x d : β)
    (h : i ≠ i') : (l.set i x).getD i' d = l.getD i' d := by
  rw [List.getD_eq_getElem?_getD, List.getElem?_set_ne h,
    ← List.getD_eq_getElem?_getD]

/-- Writing one in-range entry changes exactly that entry. -/
theorem gr_mat_entry_set_entry {α : Type} (d : α) (M : gr_mat α) (i j : Nat)
    (v : α) (hi : i < M.entries.length) (hj : j < (M.entries.getD i []).length)
    (i' j' : Nat) :
    gr_mat_entry d (gr_mat_set_entry M i j v) i' j' =
      if i' = i ∧ j' = j then v else gr_mat_entry d M i' j' := by
  show ((M.entries.set i ((M.entries.getD i []).set j v)).getD i' []).getD j' d = _
  by_cases hii : i' = i
  · subst hii
    rw [getD_set_self _ _ _ _ hi]
    by_cases hjj : j' = j
    · subst hjj
      rw [getD_set_self _ _ _ _ hj]
      simp
    · rw [getD_set_ne _ _ _ (fun h => hjj h.symm)]
      simp [gr_mat_entry, hjj]
  · rw [getD_set_ne _ _ _ (fun h => hii h.symm)]
    simp [gr_mat_entry, hii]

/-- Writing an entry preserves the row count of the entry table. -/
theorem gr_mat_set_entry_length {α : Type} (M : gr_mat α) (i j : Nat) (v : α) :
    (gr_mat_set_entry M i j v).entries.length = M.entries.length := by
  unfold gr_mat_set_entry
  simp

/-- Writing an in-range entry preserves every row's length. -/
theorem gr_mat_set_entry_row_length {α : Type} (M : gr_mat α) (i j : Nat) (v : α)
    (n : Nat) (hi : i < M.entries.length) (h : ∀ row ∈ M.entries, row.length = n) :
    ∀ row ∈ (gr_mat_set_entry M i j v).entries, row.length = n := by
  intro row hrow
  rcases List.mem_or_eq_of_mem_set hrow with hrow | rfl
  · exact h row hrow
  · rw [List.length_set]
    exact h _ (by rw [List.getD_eq_getElem _ _ hi]; exact List.getElem_mem hi)

/-- Zeroing an integer matrix: each row becomes a run of zeros of its own
length, and the dimension fields are kept. -/
theorem gr_mat_zero_int_entries (start : gr_mat Int) :
    (gr_mat_zero intCtx start).2 =
      ⟨start.r, start.c, start.entries.map (fun row => List.replicate row.length 0)⟩ := by
  show (⟨start.r, start.c,
      (start.entries.map (gr_vec_zero intCtx)).map (fun p => p.2)⟩ : gr_mat Int) = _
  congr 1
  rw [List.map_map]
  apply List.map_congr_left
  intro row _
  show (gr_vec_zero intCtx row).2 = _
  rw [gr_vec_zero_char]
  rfl

/-- The second component of the diagonal-copy fold of `gr_mat_set_si` over the
integer context is the plain fold of diagonal writes. -/
theorem gr_mat_set_si_fold_snd (l : List Nat) :
    ∀ (s : Nat) (M : gr_mat Int),
      ((l.foldl (fun acc i =>
          let cv := intCtx.set_elem (gr_mat_entry intCtx.init_val acc.2 0 0)
          (acc.1 ||| cv.1, gr_mat_set_entry acc.2 i i cv.2)) (s, M)).2) =
        l.foldl (fun N i => gr_mat_set_entry N i i (gr_mat_entry 0 N 0 0)) M := by
  induction l with
  | nil => intro s M; rfl
  | cons x xs ih =>
    intro s M
    rw [List.foldl_cons, List.foldl_cons]
    exact ih _ _

/-- The diagonal-copy fold over rows a .. a+k-1 of a matrix with n rows of
length n: entry (0,0) is copied to every visited diagonal position and
nothing else changes. -/
theorem diag_copy_fold_char (n : Nat) :
    ∀ (k a : Nat) (M : gr_mat Int), 1 ≤ a → a + k ≤ n →
      M.entries.length = n → (∀ row ∈ M.entries, row.length = n) →
      (((List.range' a k).foldl
          (fun N i => gr_mat_set_entry N i i (gr_mat_entry 0 N 0 0)) M).entries.length = n ∧
       (∀ row ∈ ((List.range' a k).foldl
          (fun N i => gr_mat_set_entry N i i (gr_mat_entry 0 N 0 0)) M).entries,
          row.length = n) ∧
       ∀ i j : Nat,
         gr_mat_entry 0 ((List.range' a k).foldl
            (fun N i => gr_mat_set_entry N i i (gr_mat_entry 0 N 0 0)) M) i j =
           if i = j ∧ a ≤ i ∧ i < a + k then gr_mat_entry 0 M 0 0
           else gr_mat_entry 0 M i j) := by
  intro k
  induction k with
  | zero =>
    intro a M _ _ hlen hrows
    refine ⟨hlen, hrows, fun i j => ?_⟩
    rw [if_neg (by omega)]
    rfl
  | succ k ih =>
    intro a M ha hak hlen hrows
    rw [List.range'_succ, List.foldl_cons]
    have haM : a < M.entries.length := by omega
    have haMr : a < (M.entries.getD a []).length := by
      rw [hrows _ (by rw [List.getD_eq_getElem _ _ haM]; exact List.getElem_mem haM)]
      omega
    have hstep := gr_mat_entry_set_entry 0 M a a (gr_mat_entry 0 M 0 0) haM haMr
    have hlen1 : (gr_mat_set_entry M a a (gr_mat_entry 0 M 0 0)).entries.length = n := by
      rw [gr_mat_set_entry_length]; exact hlen
    have hrows1 := gr_mat_set_entry_row_length M a a (gr_mat_entry 0 M 0 0) n haM hrows
    obtain ⟨hl, hr, hent⟩ := ih (a + 1) (gr_mat_set_entry M a a (gr_mat_entry 0 M 0 0))
      (by omega) (by omega) hlen1 hrows1
    refine ⟨hl, hr, fun i j => ?_⟩
    have h00 : gr_mat_entry 0 (gr_mat_set_entry M a a (gr_mat_entry 0 M 0 0)) 0 0 =
        gr_mat_entry 0 M 0 0 := by
      rw [hstep 0 0, if_neg (by omega)]
    rw [hent i j, h00, hstep i j]
    by_cases h1 : i = j ∧ a + 1 ≤ i ∧ i < a + 1 + k
    · rw [if_pos h1, if_pos ⟨h1.1, by omega, by omega⟩]
    · rw [if_neg h1]
      by_cases h2 : i = a ∧ j = a
      · rw [if_pos h2, if_pos ⟨by omega, by omega, by omega⟩]
      · have hc : ¬(i = j ∧ a ≤ i ∧ i < a + (k + 1)) := by
          rintro ⟨hij, hai, hik⟩
          have hia : i ≠ a := fun hh => h2 ⟨hh, by omega⟩
          exact h1 ⟨hij, by omega, by omega⟩
        rw [if_neg h2, if_neg hc]

/-- The diagonal-copy fold never changes the dimension fields. -/
theorem diag_copy_fold_fields (l : List Nat) :
    ∀ M : gr_mat Int,
      (l.foldl (fun N i => gr_mat_set_entry N i i (gr_mat_entry 0 N 0 0)) M).r = M.r ∧
      (l.foldl (fun N i => gr_mat_set_entry N i i (gr_mat_entry 0 N 0 0)) M).c = M.c := by
  induction l with
  | nil => intro M; exact ⟨rfl, rfl⟩
  | cons x xs ih =>
    intro M
    rw [List.foldl_cons]
    exact ih _

/-- `gr_mat_set_si` never changes the dimension fields. -/
theorem gr_mat_set_si_fields (start : gr_mat Int) (v : Int) :
    (gr_mat_set_si intCtx start v).2.r = start.r ∧
    (gr_mat_set_si intCtx start v).2.c = start.c := by
  unfold gr_mat_set_si
  split
  · rw [gr_mat_set_si_fold_snd]
    exact diag_copy_fold_fields _ _
  · exact ⟨rfl, rfl⟩

/-- Entries of the zeroed integer matrix are zero on the whole shape. -/
theorem gr_mat_zero_int_entry (start : gr_mat Int) (hwf : start.WF)
    (i j : Nat) (hi : i < start.r) :
    gr_mat_entry 0 (gr_mat_zero intCtx start).2 i j = 0 := by
  have hz : (gr_mat_zero intCtx start).2.entries =
      start.entries.map (fun row => List.replicate row.length 0) := by
    rw [gr_mat_zero_int_entries]
  show (((gr_mat_zero intCtx start).2.entries).getD i []).getD j 0 = 0
  have hi' : i < start.entries.length := by rw [hwf.1]; exact hi
  have hrow : (start.entries.map (fun row => List.replicate row.length (0 : Int))).getD i [] =
      List.replicate (start.entries[i].length) 0 := by
    rw [List.getD_eq_getElem _ _ (by rw [List.length_map]; exact hi')]
    rw [List.getElem_map]
  rw [hz, hrow]
  rcases Nat.lt_or_ge j (start.entries[i].length) with hjl | hjl
  · rw [List.getD_eq_getElem _ _ (by rw [List.length_replicate]; exact hjl)]
    rw [List.getElem_replicate]
  · rw [List.getD_eq_default _ _ (by rw [List.length_replicate]; exact hjl)]

/-- Shape facts for the zeroed integer matrix. -/
theorem gr_mat_zero_int_shape (start : gr_mat Int) (hwf : start.WF) :
    (gr_mat_zero intCtx start).2.entries.length = start.r ∧
    ∀ row ∈ (gr_mat_zero intCtx start).2.entries, row.length = start.c := by
  constructor
  · show ((gr_mat_zero intCtx start).2.entries).length = start.r
    rw [gr_mat_zero_int_entries]
    show (start.entries.map _).length = start.r
    rw [List.length_map, hwf.1]
  · intro row hrow
    rw [gr_mat_zero_int_entries] at hrow
    replace hrow : row ∈ start.entries.map (fun row => List.replicate row.length (0 : Int)) :=
      hrow
    rcases List.mem_map.mp hrow with ⟨orig, horig, rfl⟩
    rw [List.length_replicate]
    exact hwf.2 orig horig

/-- Entry-level description of `gr_mat_one` over the integers on a nonempty
square shape: ones on the diagonal, zeros elsewhere; shape preserved. -/
theorem gr_mat_one_int_char (start : gr_mat Int) (hwf : start.WF)
    (hsq : start.r = start.c) (hpos : 0 < start.r) :
    (gr_mat_one intCtx start).2.entries.length = start.r ∧
    (∀ row ∈ (gr_mat_one intCtx start).2.entries, row.length = start.r) ∧
    (∀ i j, i < start.r → j < start.r →
      gr_mat_entry 0 (gr_mat_one intCtx start).2 i j = if i = j then 1 else 0) := by
  have hc : 0 < start.c := hsq ▸ hpos
  obtain ⟨z2len, z2rows⟩ := gr_mat_zero_int_shape start hwf
  have hone : (gr_mat_one intCtx start).2 =
      (List.range' 1 (min start.r start.c - 1)).foldl
        (fun N i => gr_mat_set_entry N i i (gr_mat_entry 0 N 0 0))
        (gr_mat_set_entry (gr_mat_zero intCtx start).2 0 0 1) := by
    show (gr_mat_set_si intCtx start 1).2 = _
    unfold gr_mat_set_si
    rw [if_pos ⟨hpos, hc⟩]
    exact gr_mat_set_si_fold_snd _ _ _
  have h0len : 0 < (gr_mat_zero intCtx start).2.entries.length := by
    rw [z2len]; exact hpos
  have h0row : 0 < ((gr_mat_zero intCtx start).2.entries.getD 0 []).length := by
    rw [z2rows _ (by rw [List.getD_eq_getElem _ _ h0len]; exact List.getElem_mem h0len)]
    exact hc
  have m1len : (gr_mat_set_entry (gr_mat_zero intCtx start).2 0 0 1).entries.length =
      start.r := by
    rw [gr_mat_set_entry_length]; exact z2len
  have m1rows : ∀ row ∈ (gr_mat_set_entry (gr_mat_zero intCtx start).2 0 0 1).entries,
      row.length = start.r := by
    intro row hrow
    rw [hsq]
    exact gr_mat_set_entry_row_length _ 0 0 1 start.c h0len z2rows row hrow
  have m1entry : ∀ i j, i < start.r → j < start.r →
      gr_mat_entry 0 (gr_mat_set_entry (gr_mat_zero intCtx start).2 0 0 1) i j =
        if i = 0 ∧ j = 0 then 1 else 0 := by
    intro i j hi hj
    rw [gr_mat_entry_set_entry 0 _ 0 0 1 h0len h0row i j]
    by_cases h00 : i = 0 ∧ j = 0
    · rw [if_pos h00, if_pos h00]
    · rw [if_neg h00, if_neg h00, gr_mat_zero_int_entry start hwf i j hi]
  have hmin : min start.r start.c = start.r := by rw [← hsq, Nat.min_self]
  obtain ⟨hfl, hfr, hfe⟩ := diag_copy_fold_char start.r (min start.r start.c - 1) 1
    (gr_mat_set_entry (gr_mat_zero intCtx start).2 0 0 1) (le_refl 1)
    (by rw [hmin]; omega) m1len m1rows
  have hm00 : gr_mat_entry 0 (gr_mat_set_entry (gr_mat_zero intCtx start).2 0 0 1) 0 0 = 1 := by
    rw [m1entry 0 0 hpos hpos]
    rw [if_pos ⟨rfl, rfl⟩]
  rw [hone]
  refine ⟨hfl, hfr, fun i j hi hj => ?_⟩
  rw [hfe i j, hm00, m1entry i j hi hj]
  rw [hmin]
  by_cases hij : i = j
  · subst hij
    by_cases hi0 : i = 0
    · subst hi0
      rw [if_neg (by omega), if_pos ⟨rfl, rfl⟩, if_pos rfl]
    · rw [if_pos ⟨rfl, by omega, by omega⟩, if_pos rfl]
  · rw [if_neg (by omega), if_neg (by omega), if_neg hij]

/-- If every element of the row passes its identity-pattern test, the inner
scan of `gr_mat_is_one` finds no failure and leaves the status unchanged. -/
theorem gr_mat_is_one_row_scan_pass (i : Nat) :
    ∀ (row : List Int) (j status : Nat),
      (∀ off x, row[off]? = some x → (if i = j + off then x = 1 else x = 0)) →
      gr_mat_is_one_row_scan intCtx status i j row = (status, false) := by
  intro row
  induction row with
  | nil => intro j status _; rfl
  | cons x xs ih =>
    intro j status h
    have hx := h 0 x List.getElem?_cons_zero
    simp only [Nat.add_zero] at hx
    unfold gr_mat_is_one_row_scan
    have ht : ¬((gr_mat_is_one_entry_test intCtx i j x).1 = GR_SUCCESS ∧
        (gr_mat_is_one_entry_test intCtx i j x).2 = false) := by
      unfold gr_mat_is_one_entry_test
      by_cases hij : i = j
      · rw [if_pos hij] at hx ⊢
        simp [intCtx, hx]
      · rw [if_neg hij] at hx ⊢
        simp [intCtx, hx]
    rw [if_neg ht, Nat.or_self]
    apply ih (j + 1) status
    intro off x' hoff
    have hh := h (off + 1) x' (by rw [List.getElem?_cons_succ]; exact hoff)
    have hco : j + (off + 1) = j + 1 + off := by omega
    rw [hco] at hh
    exact hh

/-- If every entry passes its identity-pattern test, the row loop of
`gr_mat_is_one` returns the incoming status and equality flag unchanged. -/
theorem gr_mat_is_one_rows_pass :
    ∀ (rows : List (List Int)) (i status : Nat) (equal : Bool),
      (∀ ri row, rows[ri]? = some row → ∀ off x, row[off]? = some x →
        (if i + ri = off then x = 1 else x = 0)) →
      gr_mat_is_one_rows intCtx status equal i rows = (status, equal) := by
  intro rows
  induction rows with
  | nil => intro i status equal _; rfl
  | cons row rest ih =>
    intro i status equal h
    unfold gr_mat_is_one_rows
    have hrow : gr_mat_is_one_row_scan intCtx status i 0 row = (status, false) := by
      apply gr_mat_is_one_row_scan_pass i row 0 status
      intro off x hx
      have hh := h 0 row List.getElem?_cons_zero off x hx
      simp only [Nat.add_zero] at hh
      simp only [Nat.zero_add]
      exact hh
    rw [hrow]
    simp only [Bool.not_false, Bool.and_true]
    apply ih (i + 1) status equal
    intro ri r hr off x hx
    have hh := h (ri + 1) r (by rw [List.getElem?_cons_succ]; exact hr) off x hx
    have hco : i + (ri + 1) = i + 1 + ri := by omega
    rw [hco] at hh
    exact hh

/-- C8: constructing the identity with `gr_mat_one` and then testing with
`gr_mat_is_one` yields (Success, true) for every square integer matrix,
the 0×0 matrix included (it is vacuously one). -/
theorem gr_mat_one_then_is_one (start : gr_mat Int) (hwf : start.WF)
    (hsq : start.r = start.c) :
    gr_mat_is_one intCtx (gr_mat_one intCtx start).2 = (GR_SUCCESS, true) := by
  have hr1 : (gr_mat_one intCtx start).2.r = start.r := (gr_mat_set_si_fields start 1).1
  have hc1 : (gr_mat_one intCtx start).2.c = start.c := (gr_mat_set_si_fields start 1).2
  by_cases hpos : 0 < start.r
  · obtain ⟨hlen, hrows, hent⟩ := gr_mat_one_int_char start hwf hsq hpos
    unfold gr_mat_is_one
    rw [if_neg (by
      show ¬((gr_mat_one intCtx start).2.r = 0 ∨ (gr_mat_one intCtx start).2.c = 0)
      rw [hr1, hc1]
      omega)]
    apply gr_mat_is_one_rows_pass
    intro ri row hrow off x hx
    have hri : ri < start.r := by
      have := (List.getElem?_eq_some.mp hrow).1
      rw [hlen] at this
      exact this
    have hrl : row.length = start.r := by
      apply hrows
      rcases List.getElem?_eq_some.mp hrow with ⟨hh, heq⟩
      rw [← heq]
      exact List.getElem_mem hh
    have hoff : off < start.r := by
      have := (List.getElem?_eq_some.mp hx).1
      rw [hrl] at this
      exact this
    have hev : gr_mat_entry 0 (gr_mat_one intCtx start).2 ri off = x := by
      show (((gr_mat_one intCtx start).2.entries).getD ri []).getD off 0 = x
      have h1 : ((gr_mat_one intCtx start).2.entries).getD ri [] = row := by
        rw [List.getD_eq_getElem?_getD, hrow]
        rfl
      rw [h1, List.getD_eq_getElem?_getD, hx]
      rfl
    have := hent ri off hri hoff
    rw [hev] at this
    by_cases hio : ri = off
    · rw [if_pos (by omega)]
      rw [if_pos hio] at this
      omega
    · rw [if_neg (by omega)]
      rw [if_neg hio] at this
      omega
  · unfold gr_mat_is_one
    rw [if_pos (Or.inl (by rw [hr1]; omega))]

theorem gr_mat_one_then_is_one_witness :
    gr_mat_is_one intCtx
        (gr_mat_one intCtx ⟨3, 3, [[5, 5, 5], [5, 5, 5], [5, 5, 5]]⟩).2 =
      (GR_SUCCESS, true) ∧
    gr_mat_is_one intCtx (gr_mat_one intCtx ⟨0, 0, []⟩).2 = (GR_SUCCESS, true) :=
  ⟨gr_mat_one_then_is_one ⟨3, 3, [[5, 5, 5], [5, 5, 5], [5, 5, 5]]⟩ (by decide) rfl,
   gr_mat_one_then_is_one ⟨0, 0, []⟩ (by decide) rfl⟩

/-- C6 (counterexample): running LU on [[1,0],[2,1]] over the integers, the
pivot is 1, the elimination multiplier for row 1 is 2·1⁻¹ = 2, and the code
stores 2 — the multiplier itself — in the L-factor position (1,0), not the
negated multiplier -2 that the claim asserts. -/
theorem gr_mat_lu_stores_multiplier_not_negated :
    gr_mat_entry 0 (gr_mat_lu_classical intCtx [0, 0] ⟨2, 2, [[0, 0], [0, 0]]⟩
        ⟨2, 2, [[1, 0], [2, 1]]⟩ false).2.2.1 1 0 = 2 ∧
    ¬(gr_mat_entry 0 (gr_mat_lu_classical intCtx [0, 0] ⟨2, 2, [[0, 0], [0, 0]]⟩
        ⟨2, 2, [[1, 0], [2, 1]]⟩ false).2.2.1 1 0 = -2) := by
  decide

/-- `getD` through an append, left part. -/
theorem getD_append_left' {β : Type} (l1 l2 : List β) (n : Nat) (d : β)
    (h : n < l1.length) : (l1 ++ l2).getD n d = l1.getD n d := by
  rw [List.getD_eq_getElem?_getD, List.getElem?_append_left h,
    ← List.getD_eq_getElem?_getD]

/-- `getD` through an append, right part. -/
theorem getD_append_right' {β : Type} (l1 l2 : List β) (n : Nat) (d : β)
    (h : l1.length ≤ n) : (l1 ++ l2).getD n d = l2.getD (n - l1.length) d := by
  rw [List.getD_eq_getElem?_getD, List.getElem?_append_right h,
    ← List.getD_eq_getElem?_getD]

/-- `getD` inside the taken prefix. -/
theorem getD_take_of_lt' {β : Type} (l : List β) (n m : Nat) (d : β)
    (h : m < n) : (l.take n).getD m d = l.getD m d := by
  rw [List.getD_eq_getElem?_getD, List.getElem?_take_of_lt h,
    ← List.getD_eq_getElem?_getD]

/-- Entrywise description of one eliminated row over the rationals: position
rank1-1 receives the multiplier target[col]·d, the pivot-column entry is
zeroed (unless rank1-1 = col overwrote it), the tail is the subtraction of
the multiplier times the pivot row, and the prefix is untouched. -/
theorem gr_mat_lu_eliminate_row_rat (pivot target : List ℚ) (col rank1 n : Nat)
    (d : ℚ) (hp : pivot.length = n) (ht : target.length = n) (hcol : col < n)
    (hrk : rank1 - 1 ≤ col) :
    ∀ k, k < n →
      (gr_mat_lu_eliminate_row ratCtx pivot target col rank1 d).2.getD k 0 =
        if k = rank1 - 1 then target.getD col 0 * d
        else if k = col then 0
        else if col < k then
          target.getD k 0 - target.getD col 0 * d * pivot.getD k 0
        else target.getD k 0 := by
  intro k hk
  have hval : (gr_mat_lu_eliminate_row ratCtx pivot target col rank1 d).2 =
      ((target.take (col + 1) ++
        ((target.drop (col + 1)).zip (pivot.drop (col + 1))).map
          (fun p => p.1 + p.2 * -(target.getD col 0 * d))).set col 0).set
        (rank1 - 1) (-(-(target.getD col 0 * d))) := rfl
  rw [hval]
  have hL : (target.take (col + 1) ++
      ((target.drop (col + 1)).zip (pivot.drop (col + 1))).map
        (fun p => p.1 + p.2 * -(target.getD col 0 * d))).length = n := by
    rw [List.length_append, List.length_take, List.length_map, List.length_zip,
      List.length_drop, List.length_drop, hp, ht]
    omega
  by_cases hk1 : k = rank1 - 1
  · subst hk1
    rw [getD_set_self _ _ _ _ (by rw [List.length_set, hL]; omega)]
    rw [if_pos rfl]
    ring
  · rw [getD_set_ne _ _ _ (fun h => hk1 h.symm)]
    by_cases hk2 : k = col
    · subst hk2
      rw [getD_set_self _ _ _ _ (by rw [hL]; omega)]
      rw [if_neg hk1, if_pos rfl]
    · rw [getD_set_ne _ _ _ (fun h => hk2 h.symm)]
      rcases Nat.lt_or_ge k (col + 1) with hkc | hkc
      · rw [getD_append_left' _ _ _ _ (by rw [List.length_take, ht]; omega)]
        rw [getD_take_of_lt' _ _ _ _ (by omega)]
        rw [if_neg hk1, if_neg hk2, if_neg (by omega)]
      · have hkt : k < target.length := by omega
        have hkp : k < pivot.length := by omega
        have hidx : col + 1 + (k - (col + 1)) = k := by omega
        rw [getD_append_right' _ _ _ _ (by rw [List.length_take, ht]; omega)]
        rw [List.length_take, ht, Nat.min_eq_left (by omega)]
        rw [List.getD_eq_getElem?_getD, List.getElem?_map, List.zip_eq_zipWith,
          List.getElem?_zipWith, List.getElem?_drop, List.getElem?_drop, hidx,
          List.getElem?_eq_getElem hkt, List.getElem?_eq_getElem hkp]
        rw [if_neg hk1, if_neg hk2, if_pos (by omega)]
        rw [List.getD_eq_getElem target 0 hkt, List.getD_eq_getElem pivot 0 hkp]
        show target[k] + pivot[k] * -(target.getD col 0 * d) =
          target[k] - target.getD col 0 * d * pivot[k]
        ring

/-- The matrix part of the elimination loop is the pure fold of per-row
updates (the status accumulator does not influence it). -/
theorem gr_mat_lu_eliminate_snd {α : Type} (ctx : GrCtx α) (col rank1 : Nat)
    (d : α) (row : Nat) (l : List Nat) :
    ∀ (s : Nat) (M : gr_mat α),
      (l.foldl (fun acc j =>
        let er := gr_mat_lu_eliminate_row ctx (acc.2.entries.getD row [])
          (acc.2.entries.getD j []) col rank1 d
        (acc.1 ||| er.1, { acc.2 with entries := acc.2.entries.set j er.2 }))
          (s, M)).2 =
      l.foldl (fun N j =>
        { N with entries := N.entries.set j ((gr_mat_lu_eliminate_row ctx (N.entries.getD row [])
            (N.entries.getD j []) col rank1 d).2) }) M := by
  induction l with
  | nil => intro s M; rfl
  | cons x xs ih =>
    intro s M
    rw [List.foldl_cons, List.foldl_cons]
    exact ih _ _

/-- The elimination fold rewrites exactly the rows in its range, each from
the original pivot row and the original target row. -/
theorem gr_mat_lu_eliminate_fold_char {α : Type} (ctx : GrCtx α)
    (col rank1 : Nat) (d : α) (row : Nat) :
    ∀ (k a : Nat) (M : gr_mat α), row < a → a + k ≤ M.entries.length →
      ∀ j, ((List.range' a k).foldl (fun N j =>
          { N with entries := N.entries.set j ((gr_mat_lu_eliminate_row ctx (N.entries.getD row [])
              (N.entries.getD j []) col rank1 d).2) }) M).entries.getD j [] =
        if a ≤ j ∧ j < a + k
        then (gr_mat_lu_eliminate_row ctx (M.entries.getD row [])
          (M.entries.getD j []) col rank1 d).2
        else M.entries.getD j [] := by
  intro k
  induction k with
  | zero =>
    intro a M _ _ j
    rw [if_neg (by omega)]
    rfl
  | succ k ih =>
    intro a M hra hb j
    rw [List.range'_succ, List.foldl_cons]
    have hlen' : ({ M with entries := M.entries.set a ((gr_mat_lu_eliminate_row ctx (M.entries.getD row [])
          (M.entries.getD a []) col rank1 d).2) } : gr_mat α).entries.length =
        M.entries.length := by
      show (M.entries.set a _).length = _
      rw [List.length_set]
    rw [ih (a + 1) _ (by omega) (by rw [hlen']; omega) j]
    have hpiv : ({ M with entries := M.entries.set a ((gr_mat_lu_eliminate_row ctx (M.entries.getD row [])
          (M.entries.getD a []) col rank1 d).2) } : gr_mat α).entries.getD row [] =
        M.entries.getD row [] :=
      getD_set_ne _ _ _ (by omega)
    by_cases hj1 : a + 1 ≤ j ∧ j < a + 1 + k
    · have hMj : ({ M with entries := M.entries.set a ((gr_mat_lu_eliminate_row ctx (M.entries.getD row [])
            (M.entries.getD a []) col rank1 d).2) } : gr_mat α).entries.getD j [] =
          M.entries.getD j [] :=
        getD_set_ne _ _ _ (by omega)
      rw [if_pos hj1, hpiv, hMj, if_pos (by omega)]
    · rw [if_neg hj1]
      by_cases hj2 : j = a
      · subst hj2
        have hMa : ({ M with entries := M.entries.set j ((gr_mat_lu_eliminate_row ctx (M.entries.getD row [])
              (M.entries.getD j []) col rank1 d).2) } : gr_mat α).entries.getD j [] =
            (gr_mat_lu_eliminate_row ctx (M.entries.getD row [])
              (M.entries.getD j []) col rank1 d).2 :=
          getD_set_self _ _ _ _ (by omega)
        rw [hMa, if_pos (by omega)]
      · have hMj : ({ M with entries := M.entries.set a ((gr_mat_lu_eliminate_row ctx (M.entries.getD row [])
              (M.entries.getD a []) col rank1 d).2) } : gr_mat α).entries.getD j [] =
            M.entries.getD j [] :=
          getD_set_ne _ _ _ (by omega)
        rw [hMj, if_neg (by omega)]

/-- C6 (amended): in a Success pivot step over the rationals, every row j
below the pivot row is updated by: storing the elimination multiplier
target[col]·pivot⁻¹ (d being the already-inverted pivot) at column rank1-1,
zeroing the pivot-column entry (the multiplier wins if the two positions
coincide), and subtracting the multiplier times the pivot row from the
remainder of the row; entries left of the pivot column are untouched. -/
theorem gr_mat_lu_eliminate_updates (M : gr_mat ℚ) (row col rank1 m n : Nat)
    (d : ℚ) (hlen : M.entries.length = m) (hrows : ∀ r ∈ M.entries, r.length = n)
    (hcol : col < n) (hrk : rank1 - 1 ≤ col) :
    ∀ j, row < j → j < m → ∀ k, k < n →
      gr_mat_entry 0 (gr_mat_lu_eliminate ratCtx M row col rank1 m d).2 j k =
        if k = rank1 - 1 then gr_mat_entry 0 M j col * d
        else if k = col then 0
        else if col < k then
          gr_mat_entry 0 M j k - gr_mat_entry 0 M j col * d * gr_mat_entry 0 M row k
        else gr_mat_entry 0 M j k := by
  intro j hrj hjm k hk
  have hsnd : (gr_mat_lu_eliminate ratCtx M row col rank1 m d).2 =
      (List.range' (row + 1) (m - (row + 1))).foldl (fun N j =>
        { N with entries := N.entries.set j ((gr_mat_lu_eliminate_row ratCtx (N.entries.getD row [])
            (N.entries.getD j []) col rank1 d).2) }) M :=
    gr_mat_lu_eliminate_snd ratCtx col rank1 d row _ GR_SUCCESS M
  have hrm : row < M.entries.length := by omega
  have hjmm : j < M.entries.length := by omega
  have hplen : (M.entries.getD row []).length = n :=
    hrows _ (by rw [List.getD_eq_getElem _ _ hrm]; exact List.getElem_mem hrm)
  have htlen : (M.entries.getD j []).length = n :=
    hrows _ (by rw [List.getD_eq_getElem _ _ hjmm]; exact List.getElem_mem hjmm)
  show ((gr_mat_lu_eliminate ratCtx M row col rank1 m d).2.entries.getD j []).getD k 0 = _
  rw [hsnd]
  rw [gr_mat_lu_eliminate_fold_char ratCtx col rank1 d row (m - (row + 1)) (row + 1) M
    (by omega) (by omega) j]
  rw [if_pos ⟨by omega, by omega⟩]
  rw [gr_mat_lu_eliminate_row_rat (M.entries.getD row []) (M.entries.getD j [])
    col rank1 n d hplen htlen hcol hrk k hk]
  rfl

theorem gr_mat_lu_eliminate_updates_witness :
    gr_mat_entry 0 (gr_mat_lu_eliminate ratCtx ⟨2, 2, [[1, 0], [2, 1]]⟩
        0 0 1 2 1).2 1 0 = 2 ∧
    gr_mat_entry 0 (gr_mat_lu_eliminate ratCtx ⟨2, 2, [[1, 0], [2, 1]]⟩
        0 0 1 2 1).2 1 1 = 1 := by
  have h0 := gr_mat_lu_eliminate_updates ⟨2, 2, [[1, 0], [2, 1]]⟩ 0 0 1 2 2 1
    rfl (by decide) (by decide) (by decide) 1 (by decide) (by decide) 0 (by decide)
  have h1 := gr_mat_lu_eliminate_updates ⟨2, 2, [[1, 0], [2, 1]]⟩ 0 0 1 2 2 1
    rfl (by decide) (by decide) (by decide) 1 (by decide) (by decide) 1 (by decide)
  rw [h0, h1]
  constructor
  · rw [if_pos rfl]
    show (2 : ℚ) * 1 = 2
    norm_num
  · rw [if_neg (by decide), if_neg (by decide), if_pos (by decide)]
    show (1 : ℚ) - 2 * 1 * 0 = 1
    norm_num
